import Mathlib

/-!
Shallow embedding of the data-normalization and trend-statistics pipeline of
the TideTales dashboard (src/app.py).

Numeric semantics: the Python code computes in IEEE double precision via
pandas/numpy; the embedding idealizes all numeric values as rationals, so
that the closed-form statistics are exact.  A CSV cell is modelled after the
effect of pd.to_numeric with coercion of errors: either it coerces to a
rational (some q) or it is absent/junk/the missing sentinel (none).
-/

/-- One cleaned observation: a row of the two-column (year, anomaly) frame
built at lines 164-170 of src/app.py.  Both entries are numeric after
pd.to_numeric; years are not required to be integers. -/
structure Obs where
  year : ℚ
  anomaly : ℚ
deriving DecidableEq

/-- The statistics block computed at lines 202-205 of src/app.py.
Field names follow the source variables: val_start, val_end, net_shift,
peak, trough, slope, intercept. -/
structure FactPack where
  count : ℕ
  val_start : ℚ
  val_end : ℚ
  net_shift : ℚ
  peak : ℚ
  trough : ℚ
  slope : ℚ
  intercept : ℚ
deriving DecidableEq

/-- A raw CSV cell after numeric coercion: some q when the cell coerces to
the rational q, none when it is non-numeric or the missing sentinel. -/
abbrev Cell := Option ℚ

/-- A raw table (the raw_df of line 158): an ordered list of named columns,
each an ordered list of cells. -/
abbrev RawTable := List (String × List Cell)

/-- The column names of a raw table, in declaration order
(df.columns.tolist() at line 92). -/
def colNames (t : RawTable) : List String :=
  t.map Prod.fst

/-- Look up a column of a raw table by name; none when the name is absent
(models the membership test y_name in raw_df.columns at line 163 together
with column selection at line 164). -/
def getCol (t : RawTable) (n : String) : Option (List Cell) :=
  (t.find? (fun c => c.1 == n)).map Prod.snd

/-- The time-column keyword set of line 106 of src/app.py. -/
def timeKeys : List String :=
  ["year", "yr", "date", "time", "period"]

/-- The value-column keyword set d_keywords of line 107 of src/app.py. -/
def dataKeys : List String :=
  ["temp", "anom", "val", "j-d", "annual", "index", "aqi", "ppm"]

/-- Placeholder column name; in Python an out-of-bounds cols[i] would raise
IndexError instead.  All theorems below assume tables with enough columns,
so this placeholder is never the relevant output. -/
def defaultCol : String := ""

/-- Substring test on character lists: true when pat occurs contiguously
inside l (the Python `k in s` test on strings). -/
def containsTok : List Char → List Char → Bool
  | [], pat => pat.isEmpty
  | a :: l, pat => pat.isPrefixOf (a :: l) || containsTok l pat

/-- Whether any keyword of keys occurs in the lower-cased column name
(the `any(k in str(c).lower() for k in ...)` tests at lines 106-108). -/
def hasKey (keys : List String) (c : String) : Bool :=
  keys.any (fun k => containsTok (c.data.map Char.toLower) k.data)

/-- Heuristic time column of line 106: the first column whose lower-cased
name contains a time keyword, defaulting to the first column. -/
def heurTimeCol (cols : List String) : String :=
  match cols.find? (hasKey timeKeys) with
  | some c => c
  | none => cols.headD defaultCol

/-- Heuristic value column of line 108: the first column whose lower-cased
name contains a value keyword and that differs from the chosen time column,
defaulting to the second column when there are at least two columns and to
the first column otherwise. -/
def heurDataCol (cols : List String) (y : String) : String :=
  match cols.find? (fun c => hasKey dataKeys c && c != y) with
  | some c => c
  | none =>
    match cols with
    | [] => defaultCol
    | [c] => c
    | _ :: c :: _ => c

/-- The deterministic heuristic branch of ai_sniff_columns
(lines 105-109 of src/app.py). -/
def heuristicCols (cols : List String) : String × String :=
  (heurTimeCol cols, heurDataCol cols (heurTimeCol cols))

/-- ai_sniff_columns (lines 90-109).  The api argument models the external
branch: some (y, d) means an API key was supplied and the external call and
the parsing of its response succeeded, producing the names y and d, which
line 102 returns verbatim with no validation; none means no key was supplied
or the external branch raised, in which case line 103 falls through to the
heuristic. -/
def aiSniffColumns (api : Option (String × String)) (cols : List String) :
    String × String :=
  match api with
  | some yd => yd
  | none => heuristicCols cols

/-- First numerically coercible entry of a column, used only by the
spec-side classifier below. -/
def firstValidCell (cells : List Cell) : Option ℚ :=
  cells.findSome? (fun c => c)

/-- Definition following the words of the specification, section 4.1 steps
1-3, for comparison with the source heuristic: first the name-keyword match,
then the numeric-range fallback (a column whose first coercible entry lies
in [1700, 2100) becomes the time column), and only then the first column in
declaration order.  The source (line 106) has no numeric-range step. -/
def specTimeColumn (t : RawTable) : String :=
  match t.find? (fun c => hasKey timeKeys c.1) with
  | some c => c.1
  | none =>
    match t.find? (fun c =>
        match firstValidCell c.2 with
        | some v => decide (1700 ≤ v ∧ v < 2100)
        | none => false) with
    | some c => c.1
    | none => (colNames t).headD defaultCol

/-- Builds the cleaned series of lines 164-170: select the two mapped
columns, coerce to numeric, and drop every row in which either side is
absent (dropna).  Row order is preserved; the series is not sorted. -/
def buildSeries (yc dc : List Cell) : List Obs :=
  (yc.zip dc).filterMap (fun p =>
    match p.1, p.2 with
    | some y, some v => some { year := y, anomaly := v }
    | _, _ => none)

/-- The range filter of line 198: rows with start <= year <= end, both
bounds inclusive; the bounds are the integers delivered by the slider. -/
def filterRange (s : List Obs) (lo hi : ℤ) : List Obs :=
  s.filter (fun o => decide ((lo : ℚ) ≤ o.year ∧ o.year ≤ (hi : ℚ)))

/-- The guarded statistics block of lines 200-205.  When the filtered frame
is empty the block is skipped and no statistics exist (none).  Otherwise:
val_start and val_end are the first and last filtered rows in stored order
(iloc[0] and iloc[-1]), net_shift their difference, peak and trough the
column maximum and minimum, and slope and intercept the degree-one
least-squares fit of np.polyfit in closed form (normal equations).  When all
filtered years coincide the normal-equations denominator is zero; the
rational division convention then yields 0 where numpy would return a
minimum-norm solution alongside a RankWarning — no theorem below relies on
the slope or intercept of that degenerate case. -/
def factPack (s : List Obs) (lo hi : ℤ) : Option FactPack :=
  match filterRange s lo hi with
  | [] => none
  | a :: rest =>
    let f := a :: rest
    let n : ℚ := (f.length : ℚ)
    let sx := (f.map Obs.year).sum
    let sy := (f.map Obs.anomaly).sum
    let sxx := (f.map (fun o => o.year * o.year)).sum
    let sxy := (f.map (fun o => o.year * o.anomaly)).sum
    let slope := (n * sxy - sx * sy) / (n * sxx - sx * sx)
    some
      { count := f.length
        val_start := a.anomaly
        val_end := (rest.getLastD a).anomaly
        net_shift := (rest.getLastD a).anomaly - a.anomaly
        peak := rest.foldl (fun m o => max m o.anomaly) a.anomaly
        trough := rest.foldl (fun m o => min m o.anomaly) a.anomaly
        slope := slope
        intercept := (sy - slope * sx) / n }

/-- The row of a series holding the smallest year, first among ties; none on
the empty series.  This is the reading of the specification, used to state
what val_start would have to be. -/
def minYearRow : List Obs → Option Obs
  | [] => none
  | o :: t => some (t.foldl (fun b x => if x.year < b.year then x else b) o)

/-- Python int() applied to a rational: truncation toward zero
(the int(...) casts of line 193), written with natural-number division of
the absolute value so that it evaluates inside the kernel. -/
def pyInt (q : ℚ) : ℤ :=
  q.num.sign * ((q.num.natAbs / q.den : ℕ) : ℤ)

/-- The slider bounds of lines 193-195: the column minimum and maximum of
the year column, each truncated by int(), with the maximum bumped to
min + 1 when min >= max.  On an empty series the Python code would raise
(int of NaN); that is modelled as none. -/
def sliderRange : List Obs → Option (ℤ × ℤ)
  | [] => none
  | o :: rest =>
    let mn := pyInt (rest.foldl (fun m x => min m x.year) o.year)
    let mx := pyInt (rest.foldl (fun m x => max m x.year) o.year)
    if mx ≤ mn then some (mn, mn + 1) else some (mn, mx)

/-- The two data sources of the sidebar radio control (line 126). -/
inductive Source where
  | nasa
  | upload
deriving DecidableEq

/-- An uploaded CSV file: its name and its parsed table (the raw_df of
line 158, after the skiprows peek). -/
structure UploadedFile where
  name : String
  table : RawTable
deriving DecidableEq

/-- The session state relevant to data processing: current_source,
active_df (the cached cleaned series) and last_uploaded_file. -/
structure AppState where
  currentSource : Source
  activeDf : Option (List Obs)
  lastUploadedFile : Option String
deriving DecidableEq

/-- The upload handler of lines 153-172: a file whose name equals the last
processed upload name is skipped entirely; otherwise the columns are
sniffed, and only when both sniffed names are present among the columns is
the cleaned series stored and the file name recorded — when either name is
absent, nothing at all happens (no fallback, no state change). -/
def processUpload (api : Option (String × String)) (st : AppState)
    (f : UploadedFile) : AppState :=
  if st.lastUploadedFile = some f.name then st
  else
    match getCol f.table (aiSniffColumns api (colNames f.table)).1,
        getCol f.table (aiSniffColumns api (colNames f.table)).2 with
    | some yc, some dc =>
      { st with
        activeDf := some (buildSeries yc dc)
        lastUploadedFile := some f.name }
    | _, _ => st

/-- One rerun of the data-processing section, lines 138-180: the
source-change reset (lines 142-147), then the upload handler (lines
150-176), then the NASA fallback initialization (lines 179-180).  The nasa
argument stands for the series fetch_nasa_gistemp would return. -/
def step (api : Option (String × String)) (nasa : List Obs) (st : AppState)
    (choice : Source) (file : Option UploadedFile) : AppState :=
  let st1 :=
    if st.currentSource ≠ choice then
      { currentSource := choice
        activeDf := if choice = Source.nasa then some nasa else none
        lastUploadedFile := st.lastUploadedFile }
    else st
  let st2 :=
    if choice = Source.upload then
      match file with
      | some f => processUpload api st1 f
      | none => st1
    else st1
  if st2.activeDf = none ∧ choice = Source.nasa then
    { st2 with activeDf := some nasa }
  else st2

/-- The demonstration series of the specification, section 8:
[(2000, 0.40), (2010, 0.70), (2020, 1.00)]. -/
def demoSeries : List Obs :=
  [⟨2000, 2/5⟩, ⟨2010, 7/10⟩, ⟨2020, 1⟩]

/-- The exact fact pack of demoSeries over [2000, 2020]. -/
def demoPack : FactPack :=
  ⟨3, 2/5, 1, 3/5, 1, 2/5, 3/100, -(298/5)⟩

/-- A one-observation series. -/
def oneObs : List Obs :=
  [⟨2000, 1⟩]

/-- A series whose rows are stored in descending year order, as produced by
a CSV whose rows run from the most recent year backwards. -/
def unsortedSeries : List Obs :=
  [⟨2010, 5⟩, ⟨2000, 1⟩]

/-- A two-column table with integer years. -/
def tableA : RawTable :=
  [("Year", [some 2000]), ("Temp", [some 1])]

/-- A table with the same shape and column names as tableA but a different
measurement value. -/
def tableB : RawTable :=
  [("Year", [some 2000]), ("Temp", [some 5])]

/-- An upload of tableA under the name data.csv. -/
def fileA : UploadedFile :=
  ⟨"data.csv", tableA⟩

/-- An upload of tableB re-using the name data.csv. -/
def fileB : UploadedFile :=
  ⟨"data.csv", tableB⟩

/-- A table with no time keyword in any column name, whose second column
starts with a year-like value 1999 while the first starts with 5. -/
def tableC4 : RawTable :=
  [("alpha", [some 5, some 6]), ("beta", [some 1999, some 2001])]

/-- The year column of a table with non-integer years 0.5 and 2.7. -/
def yCellsC9 : List Cell :=
  [some (1/2), some (27/10)]

/-- The matching value column. -/
def dCellsC9 : List Cell :=
  [some 1, some 2]

/-- The table with non-integer years assembled from the two columns. -/
def tableC9 : RawTable :=
  [("Year", yCellsC9), ("Temp", dCellsC9)]

attribute [local semireducible] Rat.add Rat.mul Rat.inv Rat.sub

lemma factPackNoneOfEmpty (s : List Obs) (lo hi : ℤ)
    (h : filterRange s lo hi = []) : factPack s lo hi = none := by
  simp [factPack, h]

lemma getLastDMem (l : List Obs) : ∀ a : Obs, l.getLastD a ∈ a :: l := by
  induction l with
  | nil => intro a; simp
  | cons b t ih =>
    intro a
    rw [List.getLastD_cons]
    exact List.mem_cons_of_mem a (ih b)

lemma yearLeGetLastD (l : List Obs) : ∀ a : Obs,
    List.Pairwise (fun x y : Obs => x.year ≤ y.year) (a :: l) →
    ∀ x ∈ a :: l, x.year ≤ (l.getLastD a).year := by
  induction l with
  | nil =>
    intro a _ x hx
    rcases List.mem_singleton.mp hx with rfl
    simp [List.getLastD]
  | cons b t ih =>
    intro a hpw x hx
    rw [List.getLastD_cons]
    have hpwbt : List.Pairwise (fun x y : Obs => x.year ≤ y.year) (b :: t) :=
      (List.pairwise_cons.mp hpw).2
    rcases List.mem_cons.mp hx with rfl | hx2
    · have hmem : t.getLastD b ∈ b :: t := getLastDMem t b
      exact (List.pairwise_cons.mp hpw).1 _ hmem
    · exact ih b hpwbt x hx2

lemma foldlMinLeInit (l : List ℚ) : ∀ a : ℚ, l.foldl min a ≤ a := by
  induction l with
  | nil => intro a; simp
  | cons b t ih =>
    intro a
    calc (b :: t).foldl min a = t.foldl min (min a b) := rfl
    _ ≤ min a b := ih (min a b)
    _ ≤ a := min_le_left a b

lemma foldlMinLeMem (l : List ℚ) : ∀ a : ℚ, ∀ x ∈ l, l.foldl min a ≤ x := by
  induction l with
  | nil => intro a x hx; simp at hx
  | cons b t ih =>
    intro a x hx
    rcases List.mem_cons.mp hx with rfl | hx2
    · calc (x :: t).foldl min a = t.foldl min (min a x) := rfl
      _ ≤ min a x := foldlMinLeInit t (min a x)
      _ ≤ x := min_le_right a x
    · exact ih (min a b) x hx2

lemma foldlMinCases (l : List ℚ) : ∀ a : ℚ, l.foldl min a = a ∨ l.foldl min a ∈ l := by
  induction l with
  | nil => intro a; left; rfl
  | cons b t ih =>
    intro a
    have : (b :: t).foldl min a = t.foldl min (min a b) := rfl
    rw [this]
    rcases ih (min a b) with h | h
    · rcases min_choice a b with h2 | h2
      · left; rw [h, h2]
      · right; rw [h, h2]; exact List.mem_cons_self b t
    · right; exact List.mem_cons_of_mem b h

lemma initLeFoldlMax (l : List ℚ) : ∀ a : ℚ, a ≤ l.foldl max a := by
  induction l with
  | nil => intro a; simp
  | cons b t ih =>
    intro a
    calc a ≤ max a b := le_max_left a b
    _ ≤ t.foldl max (max a b) := ih (max a b)
    _ = (b :: t).foldl max a := rfl

lemma memLeFoldlMax (l : List ℚ) : ∀ a : ℚ, ∀ x ∈ l, x ≤ l.foldl max a := by
  induction l with
  | nil => intro a x hx; simp at hx
  | cons b t ih =>
    intro a x hx
    rcases List.mem_cons.mp hx with rfl | hx2
    · calc x ≤ max a x := le_max_right a x
      _ ≤ t.foldl max (max a x) := initLeFoldlMax t (max a x)
      _ = (x :: t).foldl max a := rfl
    · exact ih (max a b) x hx2

lemma foldlMaxCases (l : List ℚ) : ∀ a : ℚ, l.foldl max a = a ∨ l.foldl max a ∈ l := by
  induction l with
  | nil => intro a; left; rfl
  | cons b t ih =>
    intro a
    have : (b :: t).foldl max a = t.foldl max (max a b) := rfl
    rw [this]
    rcases ih (max a b) with h | h
    · rcases max_choice a b with h2 | h2
      · left; rw [h, h2]
      · right; rw [h, h2]; exact List.mem_cons_self b t
    · right; exact List.mem_cons_of_mem b h

lemma pyIntIntCast (z : ℤ) : pyInt ((z : ℚ)) = z := by
  unfold pyInt
  rw [Rat.num_intCast, Rat.den_intCast, Nat.div_one, Int.sign_mul_natAbs]

lemma buildSeriesLength : ∀ yc dc : List Cell,
    (buildSeries yc dc).length
      = (yc.zip dc).countP (fun p => p.1.isSome && p.2.isSome) := by
  intro yc
  induction yc with
  | nil => intro dc; simp [buildSeries]
  | cons y ys ih =>
    intro dc
    cases dc with
    | nil => simp [buildSeries]
    | cons d ds =>
      have hz : (y :: ys).zip (d :: ds) = (y, d) :: ys.zip ds := rfl
      cases y <;> cases d <;>
        simp [buildSeries, hz, List.filterMap_cons, List.countP_cons, ih ds] <;>
        simpa [buildSeries] using ih ds

lemma filterRangeEqSelf (s : List Obs) (lo hi : ℤ)
    (h : ∀ o ∈ s, (lo : ℚ) ≤ o.year ∧ o.year ≤ (hi : ℚ)) :
    filterRange s lo hi = s := by
  unfold filterRange
  apply List.filter_eq_self.mpr
  intro o ho
  simpa using h o ho

lemma factPackCount (s : List Obs) (lo hi : ℤ)
    (h : filterRange s lo hi ≠ []) :
    (factPack s lo hi).map FactPack.count = some (filterRange s lo hi).length := by
  cases hf : filterRange s lo hi with
  | nil => exact absurd hf h
  | cons a rest => simp [factPack, hf]

/-- C1: for the series [(2000, 0.40), (2010, 0.70), (2020, 1.00)] over the
inclusive range (2000, 2020), the fact pack has count 3, net change 0.60,
peak 1.00, trough 0.40, and the exact least-squares fit of value on year
has slope 0.03 and intercept -59.6. -/
theorem c1_demo_fact_pack :
    (factPack demoSeries 2000 2020).map
      (fun p => (p.count, p.net_shift, p.peak, p.trough, p.slope, p.intercept))
      = some (3, 3/5, 1, 2/5, 3/100, -(298/5)) := by
  decide

/-- C2, counterexample: on a series stored in descending year order (rows
(2010, 5) then (2000, 1)), the code takes val_start from iloc[0], giving 5,
whereas the in-range row with the smallest year is (2000, 1) with value 1.
So start_value is not the value of the smallest-year row in general. -/
theorem c2_counterexample :
    (factPack unsortedSeries 2000 2010).map FactPack.val_start = some 5 ∧
    (minYearRow (filterRange unsortedSeries 2000 2010)).map Obs.anomaly = some 1 ∧
    (5 : ℚ) ≠ 1 := by
  decide

/-- C2, amended: when the series is sorted ascending by year, val_start is
the value of an in-range row of minimal year, val_end the value of an
in-range row of maximal year, and net_shift = val_end - val_start (the last
identity holds for every series by construction). -/
theorem c2_sorted_extremes : ∀ (s : List Obs) (lo hi : ℤ) (pack : FactPack),
    List.Pairwise (fun x y : Obs => x.year ≤ y.year) s →
    factPack s lo hi = some pack →
    (∃ o, o ∈ filterRange s lo hi ∧ pack.val_start = o.anomaly ∧
      ∀ p ∈ filterRange s lo hi, o.year ≤ p.year) ∧
    (∃ o, o ∈ filterRange s lo hi ∧ pack.val_end = o.anomaly ∧
      ∀ p ∈ filterRange s lo hi, p.year ≤ o.year) ∧
    pack.net_shift = pack.val_end - pack.val_start := by
  intro s lo hi pack hsort hfp
  have hfil : List.Pairwise (fun x y : Obs => x.year ≤ y.year) (filterRange s lo hi) :=
    hsort.filter _
  cases hf : filterRange s lo hi with
  | nil => simp [factPack, hf] at hfp
  | cons a rest =>
    rw [hf] at hfil
    simp only [factPack, hf] at hfp
    obtain rfl : _ = pack := Option.some.injEq _ _ ▸ hfp
    refine ⟨⟨a, ?_, rfl, ?_⟩, ⟨rest.getLastD a, ?_, rfl, ?_⟩, rfl⟩
    · exact List.mem_cons_self a rest
    · intro p hp
      rcases List.mem_cons.mp hp with rfl | hp2
      · exact le_refl _
      · exact (List.pairwise_cons.mp hfil).1 p hp2
    · exact getLastDMem rest a
    · intro p hp
      exact yearLeGetLastD rest a hfil p hp

/-- C2, witness: the sorted demonstration series instantiates the amended
statement. -/
theorem c2_sorted_extremes_witness :
    (∃ o, o ∈ filterRange demoSeries 2000 2020 ∧ demoPack.val_start = o.anomaly ∧
      ∀ p ∈ filterRange demoSeries 2000 2020, o.year ≤ p.year) ∧
    (∃ o, o ∈ filterRange demoSeries 2000 2020 ∧ demoPack.val_end = o.anomaly ∧
      ∀ p ∈ filterRange demoSeries 2000 2020, p.year ≤ o.year) ∧
    demoPack.net_shift = demoPack.val_end - demoPack.val_start :=
  c2_sorted_extremes demoSeries 2000 2020 demoPack (by decide) (by decide)

/-- C3, counterexample: the two-column table with distinct column names
Data and Year is classified as (Year, Year): the time keyword matches Year,
no value keyword matches Data, and the absolute fallback cols[1] is again
Year, so the two returned names coincide. -/
theorem c3_counterexample :
    aiSniffColumns none ["Data", "Year"] = ("Year", "Year") ∧
    ("Data" : String) ≠ "Year" := by
  decide

/-- C3, amended: for every table with at least two columns the heuristic
classification terminates and returns two names that both occur among the
column names; the two names are not always distinct. -/
theorem c3_names_in_table : ∀ cols : List String, 2 ≤ cols.length →
    (aiSniffColumns none cols).1 ∈ cols ∧ (aiSniffColumns none cols).2 ∈ cols := by
  intro cols hlen
  match cols, hlen with
  | c0 :: c1 :: rest, _ =>
    constructor
    · show heurTimeCol (c0 :: c1 :: rest) ∈ c0 :: c1 :: rest
      unfold heurTimeCol
      cases hy : (c0 :: c1 :: rest).find? (hasKey timeKeys) with
      | some c => exact List.mem_of_find?_eq_some hy
      | none => exact List.mem_cons_self c0 (c1 :: rest)
    · show heurDataCol (c0 :: c1 :: rest) (heurTimeCol (c0 :: c1 :: rest)) ∈ c0 :: c1 :: rest
      unfold heurDataCol
      cases hd : (c0 :: c1 :: rest).find?
          (fun c => hasKey dataKeys c && c != heurTimeCol (c0 :: c1 :: rest)) with
      | some c => exact List.mem_of_find?_eq_some hd
      | none => exact List.mem_cons_of_mem c0 (List.mem_cons_self c1 rest)

/-- C3, witness: the table columns [Year, Temp] instantiate the amended
statement. -/
theorem c3_names_in_table_witness :
    2 ≤ (["Year", "Temp"] : List String).length ∧
    (aiSniffColumns none ["Year", "Temp"]).1 ∈ (["Year", "Temp"] : List String) ∧
    (aiSniffColumns none ["Year", "Temp"]).2 ∈ (["Year", "Temp"] : List String) :=
  ⟨by decide, c3_names_in_table ["Year", "Temp"] (by decide)⟩

/-- C4, counterexample: on the table with columns alpha (first numeric
entry 5) and beta (first numeric entry 1999), no column name contains a
time keyword; the numeric-range fallback described by the specification
would select beta (1999 lies in [1700, 2100)), but the code selects alpha,
the first column, directly. -/
theorem c4_counterexample :
    (aiSniffColumns none (colNames tableC4)).1 = "alpha" ∧
    specTimeColumn tableC4 = "beta" ∧
    ("alpha" : String) ≠ "beta" := by
  decide

/-- C4, amended: when no column name matches a time keyword, the code
selects the first column in declaration order immediately; there is no
numeric-range fallback in the source. -/
theorem c4_no_numeric_fallback : ∀ (c : String) (cs : List String),
    (c :: cs).find? (hasKey timeKeys) = none →
    (aiSniffColumns none (c :: cs)).1 = c := by
  intro c cs h
  show heurTimeCol (c :: cs) = c
  unfold heurTimeCol
  rw [h]
  rfl

/-- C4, witness: the keyword-free column list [alpha, beta] instantiates
the amended statement. -/
theorem c4_no_numeric_fallback_witness :
    (("alpha" :: ["beta"]).find? (hasKey timeKeys) = none) ∧
    (aiSniffColumns none ("alpha" :: ["beta"])).1 = "alpha" :=
  ⟨by decide, c4_no_numeric_fallback "alpha" ["beta"] (by decide)⟩

/-- C5, counterexample: on a range containing no observation the code
produces no fact pack at all and raises nothing: the guard at line 200
silently skips the statistics block.  No EmptyRangeError exists anywhere
in the program. -/
theorem c5_counterexample : factPack oneObs 2005 2010 = none := by
  decide

/-- C5, amended: for every series and every range with no rows inside it,
the statistics block is silently skipped and no fact pack is produced
(none), rather than a typed error being raised. -/
theorem c5_empty_silent : ∀ (s : List Obs) (lo hi : ℤ),
    filterRange s lo hi = [] → factPack s lo hi = none := by
  intro s lo hi h
  exact factPackNoneOfEmpty s lo hi h

/-- C5, witness: the one-row series with the disjoint range (2005, 2010)
instantiates the amended statement. -/
theorem c5_empty_silent_witness :
    filterRange oneObs 2005 2010 = [] ∧ factPack oneObs 2005 2010 = none :=
  ⟨by decide, c5_empty_silent oneObs 2005 2010 (by decide)⟩

/-- C6, counterexample: on a range containing exactly one observation the
code does produce a fact pack (np.polyfit returns a degenerate
least-squares solution and only emits a RankWarning); no DegenerateFitError
exists anywhere in the program. -/
theorem c6_counterexample :
    (factPack oneObs 2000 2000).isSome = true ∧
    (factPack oneObs 2000 2000).map FactPack.count = some 1 := by
  decide

/-- C6, amended: on a range containing exactly one observation no error is
raised; the fact pack is produced with count 1, val_start, val_end, peak
and trough all equal to that observation value, and net_shift 0 (slope and
intercept are silently computed as a degenerate fit). -/
theorem c6_single_row : ∀ (s : List Obs) (lo hi : ℤ) (o : Obs),
    filterRange s lo hi = [o] →
    (factPack s lo hi).map
      (fun p => (p.count, p.val_start, p.val_end, p.peak, p.trough, p.net_shift))
      = some (1, o.anomaly, o.anomaly, o.anomaly, o.anomaly, 0) := by
  intro s lo hi o h
  simp [factPack, h]

/-- C6, witness: the one-row series over the range (2000, 2000)
instantiates the amended statement. -/
theorem c6_single_row_witness :
    filterRange oneObs 2000 2000 = [⟨2000, 1⟩] ∧
    (factPack oneObs 2000 2000).map
      (fun p => (p.count, p.val_start, p.val_end, p.peak, p.trough, p.net_shift))
      = some (1, 1, 1, 1, 1, 0) :=
  ⟨by decide, c6_single_row oneObs 2000 2000 ⟨2000, 1⟩ (by decide)⟩

/-- C7, counterexample: with start 2010 greater than end 2000 the filter is
empty and the statistics block is silently skipped; no InvalidRangeError
exists anywhere in the program (the UI slider cannot even produce such a
pair). -/
theorem c7_counterexample : factPack oneObs 2010 2000 = none := by
  decide

/-- C7, amended: for every series and every range with start greater than
end, the filter is empty and the statistics block is silently skipped (no
fact pack, no error), regardless of series content. -/
theorem c7_reversed_silent : ∀ (s : List Obs) (lo hi : ℤ),
    hi < lo → factPack s lo hi = none := by
  intro s lo hi h
  apply factPackNoneOfEmpty
  unfold filterRange
  rw [List.filter_eq_nil_iff]
  intro o ho
  simp only [decide_eq_true_eq, not_and, not_le]
  intro h1
  have h2 : (hi : ℚ) < (lo : ℚ) := by exact_mod_cast h
  linarith

/-- C7, witness: the reversed range (2010, 2000) on the one-row series
instantiates the amended statement. -/
theorem c7_reversed_silent_witness :
    (2000 : ℤ) < 2010 ∧ factPack oneObs 2010 2000 = none :=
  ⟨by decide, c7_reversed_silent oneObs 2010 2000 (by decide)⟩

/-- C8, counterexample: when the external call returns the names X and Z,
ai_sniff_columns returns them verbatim (line 102) even though X does not
occur among the table columns [Year, Temp]: no validation happens inside
classify, so classify can yield a mapping with names absent from the
table. -/
theorem c8_counterexample :
    aiSniffColumns (some ("X", "Z")) ["Year", "Temp"] = ("X", "Z") ∧
    ("X" : String) ∉ (["Year", "Temp"] : List String) := by
  decide

/-- C8, amended: the membership validation happens only at the upload call
site (line 163), and when either sniffed name is absent from the table the
handler does not fall back to the heuristic but leaves the session state
entirely unchanged, so a mapping with absent names is never used to build a
series.  A failure of the external call itself (the none case of the api
argument) falls back to the heuristic by definition of aiSniffColumns. -/
theorem c8_absent_names_no_effect :
    ∀ (api : Option (String × String)) (nasa : List Obs) (st : AppState)
      (f : UploadedFile),
    st.currentSource = Source.upload →
    (getCol f.table (aiSniffColumns api (colNames f.table)).1 = none ∨
      getCol f.table (aiSniffColumns api (colNames f.table)).2 = none) →
    step api nasa st Source.upload (some f) = st := by
  intro api nasa st f hsrc hbad
  have hproc : processUpload api st f = st := by
    unfold processUpload
    split
    · rfl
    · rcases hbad with h | h
      · rw [h]
      · cases hc : getCol f.table (aiSniffColumns api (colNames f.table)).1 with
        | none => rw [h]
        | some yc => rw [h]
  unfold step
  rw [hsrc]
  simp [hproc]

/-- C8, witness: the bogus external names (X, Z) against tableA leave the
session state unchanged. -/
theorem c8_absent_names_no_effect_witness :
    (⟨Source.upload, none, none⟩ : AppState).currentSource = Source.upload ∧
    (getCol tableA (aiSniffColumns (some ("X", "Z")) (colNames tableA)).1 = none ∨
      getCol tableA (aiSniffColumns (some ("X", "Z")) (colNames tableA)).2 = none) ∧
    step (some ("X", "Z")) [] ⟨Source.upload, none, none⟩ Source.upload
      (some ⟨"bogus.csv", tableA⟩) = ⟨Source.upload, none, none⟩ :=
  ⟨rfl, Or.inl (by decide),
    c8_absent_names_no_effect (some ("X", "Z")) [] ⟨Source.upload, none, none⟩
      ⟨"bogus.csv", tableA⟩ rfl (Or.inl (by decide))⟩

/-- C9, counterexample: on the table with non-integer years 0.5 and 2.7 the
slider bounds are int(0.5) = 0 and int(2.7) = 2, and the full-range filter
then drops the row with year 2.7, giving count 1 instead of the 2 valid
rows of the table. -/
theorem c9_counterexample :
    aiSniffColumns none (colNames tableC9) = ("Year", "Temp") ∧
    getCol tableC9 ("Year") = some yCellsC9 ∧
    getCol tableC9 ("Temp") = some dCellsC9 ∧
    sliderRange (buildSeries yCellsC9 dCellsC9) = some (0, 2) ∧
    (factPack (buildSeries yCellsC9 dCellsC9) 0 2).map FactPack.count = some 1 ∧
    (yCellsC9.zip dCellsC9).countP (fun p => p.1.isSome && p.2.isSome) = 2 ∧
    (1 : ℕ) ≠ 2 := by
  decide

/-- C9, amended: classifying a table, building the cleaned series, and
filtering to the slider default full range reproduces a count equal to the
number of rows whose two selected cells are both coercible and non-absent,
provided every coerced year is an integer (the int() truncation at line 193
can otherwise exclude the largest year from the range). -/
theorem c9_round_trip : ∀ (t : RawTable) (yc dc : List Cell) (mn mx : ℤ),
    getCol t (aiSniffColumns none (colNames t)).1 = some yc →
    getCol t (aiSniffColumns none (colNames t)).2 = some dc →
    (∀ o ∈ buildSeries yc dc, ∃ z : ℤ, o.year = (z : ℚ)) →
    sliderRange (buildSeries yc dc) = some (mn, mx) →
    (factPack (buildSeries yc dc) mn mx).map FactPack.count
      = some ((yc.zip dc).countP (fun p => p.1.isSome && p.2.isSome)) := by
  intro t yc dc mn mx hy hd hint hsr
  cases hserie : buildSeries yc dc with
  | nil =>
    rw [hserie] at hsr
    simp [sliderRange] at hsr
  | cons o rest =>
    rw [hserie] at hsr hint
    simp only [sliderRange] at hsr
    have e1 : rest.foldl (fun b x => min b x.year) o.year
        = (rest.map Obs.year).foldl min o.year :=
      (List.foldl_map Obs.year min rest o.year).symm
    have e2 : rest.foldl (fun b x => max b x.year) o.year
        = (rest.map Obs.year).foldl max o.year :=
      (List.foldl_map Obs.year max rest o.year).symm
    rw [e1, e2] at hsr
    have hzm : ∃ z : ℤ, (rest.map Obs.year).foldl min o.year = (z : ℚ) := by
      rcases foldlMinCases (rest.map Obs.year) o.year with h | h
      · obtain ⟨z, hz⟩ := hint o (List.mem_cons_self o rest)
        exact ⟨z, by rw [h, hz]⟩
      · obtain ⟨x, hx, hxy⟩ := List.mem_map.mp h
        obtain ⟨z, hz⟩ := hint x (List.mem_cons_of_mem o hx)
        exact ⟨z, by rw [← hxy, hz]⟩
    have hzM : ∃ z : ℤ, (rest.map Obs.year).foldl max o.year = (z : ℚ) := by
      rcases foldlMaxCases (rest.map Obs.year) o.year with h | h
      · obtain ⟨z, hz⟩ := hint o (List.mem_cons_self o rest)
        exact ⟨z, by rw [h, hz]⟩
      · obtain ⟨x, hx, hxy⟩ := List.mem_map.mp h
        obtain ⟨z, hz⟩ := hint x (List.mem_cons_of_mem o hx)
        exact ⟨z, by rw [← hxy, hz]⟩
    obtain ⟨zm, hm⟩ := hzm
    obtain ⟨zM, hM⟩ := hzM
    rw [hm, hM, pyIntIntCast, pyIntIntCast] at hsr
    have hlow : ∀ p ∈ o :: rest, (zm : ℚ) ≤ p.year := by
      intro p hp
      rw [← hm]
      rcases List.mem_cons.mp hp with rfl | hp2
      · exact foldlMinLeInit (rest.map Obs.year) p.year
      · exact foldlMinLeMem (rest.map Obs.year) o.year p.year
          (List.mem_map_of_mem Obs.year hp2)
    have hhigh : ∀ p ∈ o :: rest, p.year ≤ (zM : ℚ) := by
      intro p hp
      rw [← hM]
      rcases List.mem_cons.mp hp with rfl | hp2
      · exact initLeFoldlMax (rest.map Obs.year) p.year
      · exact memLeFoldlMax (rest.map Obs.year) o.year p.year
          (List.mem_map_of_mem Obs.year hp2)
    have hmnmx : mn = zm ∧ ((mx = zm + 1 ∧ zM ≤ zm) ∨ mx = zM) := by
      by_cases hcase : zM ≤ zm
      · rw [if_pos hcase] at hsr
        have h0 := Option.some.inj hsr
        exact ⟨(congrArg Prod.fst h0).symm, Or.inl ⟨(congrArg Prod.snd h0).symm, hcase⟩⟩
      · rw [if_neg hcase] at hsr
        have h0 := Option.some.inj hsr
        exact ⟨(congrArg Prod.fst h0).symm, Or.inr (congrArg Prod.snd h0).symm⟩
    have hMmx : (zM : ℚ) ≤ (mx : ℚ) := by
      rcases hmnmx.2 with ⟨rfl, hle⟩ | rfl
      · exact_mod_cast le_trans hle (by omega)
      · exact le_refl _
    have hall : ∀ p ∈ o :: rest, (mn : ℚ) ≤ p.year ∧ p.year ≤ (mx : ℚ) := by
      intro p hp
      constructor
      · rw [hmnmx.1]
        exact hlow p hp
      · exact le_trans (hhigh p hp) hMmx
    have hfeq : filterRange (o :: rest) mn mx = o :: rest :=
      filterRangeEqSelf (o :: rest) mn mx hall
    rw [factPackCount (o :: rest) mn mx (by rw [hfeq]; simp), hfeq]
    rw [← hserie, buildSeriesLength]

/-- C9, witness: the integer-year table tableA instantiates the amended
statement. -/
theorem c9_round_trip_witness :
    (∀ o ∈ buildSeries [some (2000 : ℚ)] [some (1 : ℚ)], ∃ z : ℤ, o.year = (z : ℚ)) ∧
    sliderRange (buildSeries [some (2000 : ℚ)] [some (1 : ℚ)]) = some (2000, 2001) ∧
    (factPack (buildSeries [some (2000 : ℚ)] [some (1 : ℚ)]) 2000 2001).map FactPack.count
      = some ((([some (2000 : ℚ)] : List Cell).zip ([some (1 : ℚ)] : List Cell)).countP
          (fun p => p.1.isSome && p.2.isSome)) :=
  ⟨by intro o ho; exact ⟨2000, by simp [buildSeries] at ho; rw [ho]; norm_num⟩,
   by decide,
   c9_round_trip tableA [some (2000 : ℚ)] [some (1 : ℚ)] 2000 2001
     (by decide) (by decide)
     (by intro o ho; exact ⟨2000, by simp [buildSeries] at ho; rw [ho]; norm_num⟩)
     (by decide)⟩

/-- C10, counterexample: uploading fileA (name data.csv, measurement 1) and
then uploading the different fileB (same name data.csv, measurement 5)
leaves the series built from fileA in effect, because the handler compares
only file names (line 153): a different file re-using a name is never
reprocessed. -/
theorem c10_counterexample :
    fileA ≠ fileB ∧
    (step none [] (step none [] ⟨Source.upload, none, none⟩ Source.upload (some fileA))
        Source.upload (some fileB)).activeDf = some [⟨2000, 1⟩] ∧
    buildSeries [some (2000 : ℚ)] [some (5 : ℚ)] = [⟨2000, 5⟩] ∧
    ([⟨2000, (1 : ℚ)⟩] : List Obs) ≠ [⟨2000, 5⟩] := by
  decide

/-- C10, amended: the cached series is rebuilt when the data-source
selection changes, and an upload is reprocessed exactly when its file name
differs from the last processed upload: a same-named upload leaves the
whole session state unchanged, while a new-named upload with valid sniffed
columns stores the freshly built series. -/
theorem c10_invalidation :
    ∀ (api : Option (String × String)) (nasa : List Obs) (st : AppState)
      (f : UploadedFile),
    (st.currentSource ≠ Source.nasa →
      (step api nasa st Source.nasa none).activeDf = some nasa) ∧
    (st.currentSource = Source.upload → st.lastUploadedFile = some f.name →
      step api nasa st Source.upload (some f) = st) ∧
    (∀ yc dc, st.currentSource = Source.upload → st.lastUploadedFile ≠ some f.name →
      getCol f.table (aiSniffColumns api (colNames f.table)).1 = some yc →
      getCol f.table (aiSniffColumns api (colNames f.table)).2 = some dc →
      (step api nasa st Source.upload (some f)).activeDf = some (buildSeries yc dc)) := by
  intro api nasa st f
  refine ⟨?_, ?_, ?_⟩
  · intro hne
    unfold step
    rw [if_pos hne]
    simp
  · intro hsrc hlast
    have hproc : processUpload api st f = st := by
      unfold processUpload
      rw [if_pos hlast]
    unfold step
    rw [hsrc]
    simp [hproc]
  · intro yc dc hsrc hlast hgy hgd
    have hproc : processUpload api st f =
        { st with
          activeDf := some (buildSeries yc dc)
          lastUploadedFile := some f.name } := by
      unfold processUpload
      rw [if_neg hlast, hgy, hgd]
    unfold step
    rw [hsrc]
    simp [hproc]

/-- C10, witness: concrete instantiations of the three parts of the amended
statement. -/
theorem c10_invalidation_witness :
    (step none oneObs ⟨Source.upload, none, none⟩ Source.nasa none).activeDf
      = some oneObs ∧
    step none oneObs ⟨Source.upload, some [⟨2000, 1⟩], some ("data.csv")⟩
        Source.upload (some fileA)
      = ⟨Source.upload, some [⟨2000, 1⟩], some ("data.csv")⟩ ∧
    (step none oneObs ⟨Source.upload, none, none⟩ Source.upload (some fileA)).activeDf
      = some (buildSeries [some (2000 : ℚ)] [some (1 : ℚ)]) :=
  ⟨(c10_invalidation none oneObs ⟨Source.upload, none, none⟩ fileA).1 (by decide),
   (c10_invalidation none oneObs
       ⟨Source.upload, some [⟨2000, 1⟩], some ("data.csv")⟩ fileA).2.1 rfl rfl,
   (c10_invalidation none oneObs ⟨Source.upload, none, none⟩ fileA).2.2
     [some (2000 : ℚ)] [some (1 : ℚ)] rfl (by decide) (by decide) (by decide)⟩
